import Mathlib

/-!
Shallow embedding of the spin-qubit simulator core:
`src/js/spinPhysics.js` (SpinPhysics module: complex amplitudes, time
evolution, decoherence, gates, measurement, gate log) and the
environment model `decoherence.js` (Decoherence module: computePhysics).

Modelling conventions:
* JS doubles are modelled as exact reals (`ℝ`), `Math.exp/cos/sin/sqrt`
  as `Real.exp/cos/sin/sqrt`, and `Math.atan2(im, re)` as
  `Complex.arg ⟨re, im⟩` (same value on all inputs, including 0).
* `Math.random()` draws are passed in as explicit real parameters.
* Wall-clock timestamps (`Date.now()`) are omitted from log entries;
  no other field of a log entry is dropped.
* JS `param || d` (which substitutes the default both for an omitted
  argument and for the falsy value 0) is `jsDefault`.
-/

noncomputable section

namespace SpinSim

/-- Complex amplitude `{re, im}` pair from spinPhysics.js. -/
structure Cx where
  re : ℝ
  im : ℝ
  deriving DecidableEq

def cmul (a b : Cx) : Cx := ⟨a.re * b.re - a.im * b.im, a.re * b.im + a.im * b.re⟩

def cadd (a b : Cx) : Cx := ⟨a.re + b.re, a.im + b.im⟩

def csub (a b : Cx) : Cx := ⟨a.re - b.re, a.im - b.im⟩

def cscale (a : Cx) (s : ℝ) : Cx := ⟨a.re * s, a.im * s⟩

def cnorm2 (a : Cx) : ℝ := a.re * a.re + a.im * a.im

def cexp (theta : ℝ) : Cx := ⟨Real.cos theta, Real.sin theta⟩

def conj (a : Cx) : Cx := ⟨a.re, -a.im⟩

-- Physical constants of spinPhysics.js
def GYROMAGNETIC_RATIO : ℝ := 28.024e9

def TIME_SCALE : ℝ := 50e-9

def B1_max : ℝ := 0.1

/-- One entry of the gate log: `applyGate` pushes a gate record
(with post-state probabilities and Bloch angles), `measure` pushes a
measurement record (with the result and post-state probabilities). -/
inductive LogEntry where
  | gateEntry (gate : String) (param : Option ℝ) (p0 p1 theta phi : ℝ)
  | measureEntry (result : ℕ) (p0 p1 : ℝ)
  deriving DecidableEq

/-- The SpinPhysics module state touched by the claims: the amplitudes
`alpha`, `beta`, the static field `Bz` (set by `setBField`), and the
gate log.  The cached display frequencies `larmorFreq`/`rabiFreq` are
recomputed from `Bz`/`B1_max` on each use and are not modelled. -/
structure EngineState where
  alpha : Cx
  beta : Cx
  Bz : ℝ
  gateLog : List LogEntry

/-- Initial module state: `|0⟩` with `Bz = 1.0` and an empty log. -/
def initState : EngineState := ⟨⟨1, 0⟩, ⟨0, 0⟩, 1, []⟩

def getP0 (s : EngineState) : ℝ := cnorm2 s.alpha

def getP1 (s : EngineState) : ℝ := cnorm2 s.beta

/-- Total squared norm `|α|² + |β|²`. -/
def norm2 (s : EngineState) : ℝ := cnorm2 s.alpha + cnorm2 s.beta

/-- Bloch polar angle, from getBlochAngles. -/
def blochTheta (s : EngineState) : ℝ :=
  2 * Real.arccos (min 1 (Real.sqrt (1 - getP1 s)))

/-- Bloch azimuth, from getBlochAngles.  `Math.atan2(im, re)` is
`Complex.arg ⟨re, im⟩`; since both phases lie in `(-π, π]`, their
difference lies in `(-2π, 2π)`, so the source's two wrap loops reduce
to at most one `+2π` correction. -/
def blochPhi (s : EngineState) : ℝ :=
  let phaseAlpha := Complex.arg ⟨s.alpha.re, s.alpha.im⟩
  let phaseBeta := Complex.arg ⟨s.beta.re, s.beta.im⟩
  let phi := phaseBeta - phaseAlpha
  if phi < 0 then phi + 2 * Real.pi else phi

/-- normalize(): rescale `α`, `β` to unit norm unless the norm is at or
below the 1e-10 floor, in which case the state is left untouched. -/
def normalize (s : EngineState) : EngineState :=
  let n := Real.sqrt (cnorm2 s.alpha + cnorm2 s.beta)
  if n > 1e-10 then
    { s with alpha := cscale s.alpha (1 / n), beta := cscale s.beta (1 / n) }
  else s

/-- evolve(dt, isPulsing): optional Rabi rotation, then free Larmor
precession, then normalize. -/
def evolve (dt : ℝ) (isPulsing : Bool) (s : EngineState) : EngineState :=
  let simDt := dt * TIME_SCALE
  let omegaL := 2 * Real.pi * GYROMAGNETIC_RATIO * s.Bz
  let s1 :=
    if isPulsing then
      let omegaR := 2 * Real.pi * ( GYROMAGNETIC_RATIO * B1_max)
      let angle := omegaR * simDt
      let cosH := Real.cos (angle / 2)
      let sinH := Real.sin (angle / 2)
      { s with
        alpha := cadd (cscale s.alpha cosH) (cmul ⟨0, -sinH⟩ s.beta)
        beta := cadd (cmul ⟨0, -sinH⟩ s.alpha) (cscale s.beta cosH) }
    else s
  let phase := omegaL * simDt / 2
  normalize
    { s1 with
      alpha := cmul s1.alpha (cexp phase)
      beta := cmul s1.beta (cexp (-phase)) }

/-- The fields of the environment snapshot that applyDecoherence reads
(`decoState.T1`, `decoState.T2`, `decoState.thermalExcitation`). -/
structure DecoState where
  T1 : ℝ
  T2 : ℝ
  thermalExcitation : ℝ

/-- The T1-relaxation step of applyDecoherence (lines 86-99). -/
def applyT1 (simDt : ℝ) (deco : DecoState) (s : EngineState) : EngineState :=
  if 0 < deco.T1 ∧ deco.T1 < 1e6 then
    let p1 := cnorm2 s.beta
    let p_eq := deco.thermalExcitation
    let decay1 := Real.exp (-simDt / deco.T1)
    let newP1 := p_eq + (p1 - p_eq) * decay1
    let clampedP1 := max 0 (min 1 newP1)
    let newP0 := 1 - clampedP1
    let currentP0 := cnorm2 s.alpha
    let currentP1 := cnorm2 s.beta
    { s with
      alpha := if currentP0 > 1e-12 then cscale s.alpha (Real.sqrt (newP0 / currentP0)) else s.alpha
      beta := if currentP1 > 1e-12 then cscale s.beta (Real.sqrt (clampedP1 / currentP1)) else s.beta }
  else s

/-- The T2-dephasing step of applyDecoherence (lines 103-113); `rand`
is the `Math.random()` draw for the phase kick. -/
def applyT2 (simDt rand : ℝ) (deco : DecoState) (s : EngineState) : EngineState :=
  if 0 < deco.T2 ∧ deco.T2 < 1e6 then
    let decay2 := Real.exp (-simDt / deco.T2)
    let currentCoherence := Real.sqrt (cnorm2 s.alpha * cnorm2 s.beta)
    if currentCoherence > 1e-12 then
      let phaseKick := (1 - decay2) * (rand - 0.5) * 0.1
      { s with beta := cmul s.beta (cexp phaseKick) }
    else s
  else s

/-- applyDecoherence(dt, decoState): T1 relaxation, T2 phase kick, then
normalize.  The `!decoState` early return is the case where no snapshot
is supplied; the claims always supply one, so the snapshot is taken
directly. -/
def applyDecoherence (dt : ℝ) (deco : DecoState) (rand : ℝ) (s : EngineState) : EngineState :=
  normalize (applyT2 (dt * TIME_SCALE) rand deco (applyT1 (dt * TIME_SCALE) deco s))

/-- JS `param || d`: the default replaces an omitted parameter and also
the falsy value 0. -/
def jsDefault (param : Option ℝ) (d : ℝ) : ℝ :=
  match param with
  | none => d
  | some p => if p = 0 then d else p

/-- JS `param || null` used when logging the gate parameter. -/
def paramOrNull (param : Option ℝ) : Option ℝ :=
  match param with
  | none => none
  | some p => if p = 0 then none else some p

/-- The switch of applyGate: the new `(α, β)` pair for a known gate id,
`none` for an unknown one (the source's silent `default: return`). -/
def gateTransform (g : String) (param : Option ℝ) (a b : Cx) : Option (Cx × Cx) :=
  if g = "X" then some (b, a)
  else if g = "Y" then some (cmul ⟨0, -1⟩ b, cmul ⟨0, 1⟩ a)
  else if g = "Z" then some (a, cscale b (-1))
  else if g = "H" then
    some (cscale (cadd a b) (1 / Real.sqrt 2), cscale (csub a b) (1 / Real.sqrt 2))
  else if g = "S" then some (a, cmul ⟨0, 1⟩ b)
  else if g = "T" then some (a, cmul (cexp (Real.pi / 4)) b)
  else if g = "Rx" then
    let t := jsDefault param (Real.pi / 2) / 2
    some (cadd (cscale a (Real.cos t)) (cmul ⟨0, -Real.sin t⟩ b),
          cadd (cmul ⟨0, -Real.sin t⟩ a) (cscale b (Real.cos t)))
  else if g = "Ry" then
    let t := jsDefault param (Real.pi / 2) / 2
    some (cadd (cscale a (Real.cos t)) (cscale b (-Real.sin t)),
          cadd (cscale a (Real.sin t)) (cscale b (Real.cos t)))
  else if g = "Rz" then
    let t := jsDefault param (Real.pi / 2) / 2
    some (cmul (cexp (-t)) a, cmul (cexp t) b)
  else none

/-- applyGate(gateName, param): apply the unitary for a known gate id,
normalize, and append a log entry; unknown ids leave the state (and the
log) untouched. -/
def applyGate (g : String) (param : Option ℝ) (s : EngineState) : EngineState :=
  match gateTransform g param s.alpha s.beta with
  | none => s
  | some (a', b') =>
    let s' := normalize { s with alpha := a', beta := b' }
    { s' with
      gateLog := s'.gateLog ++
        [LogEntry.gateEntry g (paramOrNull param) (getP0 s') (getP1 s')
          (blochTheta s') (blochPhi s')] }

/-- measure(): `u` is the `Math.random()` draw; the outcome is 1 iff
`u < |β|²`; the state collapses to the matching basis state and a
MEASURE entry is appended. -/
def measure (u : ℝ) (s : EngineState) : ℕ × EngineState :=
  let p1 := cnorm2 s.beta
  let result : ℕ := if u < p1 then 1 else 0
  let s' : EngineState :=
    if result = 0 then { s with alpha := ⟨1, 0⟩, beta := ⟨0, 0⟩ }
    else { s with alpha := ⟨0, 0⟩, beta := ⟨1, 0⟩ }
  (result,
    { s' with gateLog := s'.gateLog ++ [LogEntry.measureEntry result (getP0 s') (getP1 s')] })

-- ── Environment model (decoherence.js) ──

namespace Deco

def KB : ℝ := 1.380649e-23

def MU_B : ℝ := 9.2740100783e-24

def G_FACTOR : ℝ := 2.0

def T1_REF : ℝ := 6.0

def T2_REF : ℝ := 0.028

def T_REF : ℝ := 0.020

def T2STAR_REF : ℝ := 0.00012

end Deco

/-- The quantities recomputed by Decoherence.computePhysics. -/
structure DecoComputed where
  T1 : ℝ
  T2 : ℝ
  T2star : ℝ
  thermalExcitation : ℝ
  zeemanSplitting : ℝ

/-- computePhysics() as a pure function of the stored temperature (mK)
and field (T). -/
def computePhysics (temperature Bfield : ℝ) : DecoComputed :=
  let T_kelvin := temperature / 1000
  let T_k := max T_kelvin 0.001
  let zeemanSplitting := Deco.G_FACTOR * Deco.MU_B * Bfield
  let ratio_T := T_k / Deco.T_REF
  let rate_johnson := (1 / Deco.T1_REF) * ratio_T
  let rate_direct := 0.001 * ratio_T * Bfield ^ 4
  let rate_raman := 1e-8 * ratio_T ^ 7
  let deltaE_valley := 0.1e-3 * 1.602e-19
  let orbach_exp := -deltaE_valley / (Deco.KB * T_k)
  let rate_orbach := if orbach_exp > -500 then 1e3 * Real.exp orbach_exp else 0
  let total_rate_T1 := rate_johnson + rate_direct + rate_raman + rate_orbach
  let T1 := min 100 (max 1e-9 (1 / total_rate_T1))
  let T2_phonon := Deco.T2_REF * (Deco.T_REF / T_k) ^ 3
  let T2_bound := 2 * T1
  let T2 := max 1e-9 (min T2_phonon T2_bound)
  let T2star_phonon := Deco.T2STAR_REF * (Deco.T_REF / T_k) ^ 1
  let T2star := max 1e-10 (min T2star_phonon T2)
  let betaTh := zeemanSplitting / (Deco.KB * T_k)
  let thermalExcitation := if betaTh > 500 then 0 else 1 / (1 + Real.exp betaTh)
  ⟨T1, T2, T2star, thermalExcitation, zeemanSplitting⟩

/-- The environment snapshot the tick loop hands to applyDecoherence
(the `T1`, `T2`, `thermalExcitation` fields of `Decoherence.getState()`)
after `setTemperature(temperature)` and `setBfield(Bfield)`. -/
def snapshotOf (temperature Bfield : ℝ) : DecoState :=
  let c := computePhysics temperature Bfield
  ⟨c.T1, c.T2, c.thermalExcitation⟩

-- ── Basic norm lemmas ──

theorem cnorm2_nonneg (a : Cx) : 0 ≤ cnorm2 a := by
  have h1 : 0 ≤ a.re * a.re := mul_self_nonneg _
  have h2 : 0 ≤ a.im * a.im := mul_self_nonneg _
  simpa [cnorm2] using add_nonneg h1 h2

theorem cnorm2_cscale (a : Cx) (s : ℝ) : cnorm2 (cscale a s) = cnorm2 a * s ^ 2 := by
  simp only [cnorm2, cscale]
  ring

theorem cnorm2_cmul (a b : Cx) : cnorm2 (cmul a b) = cnorm2 a * cnorm2 b := by
  simp only [cnorm2, cmul]
  ring

theorem cnorm2_cexp (theta : ℝ) : cnorm2 (cexp theta) = 1 := by
  simp only [cnorm2, cexp]
  have h := Real.sin_sq_add_cos_sq theta
  nlinarith [h]

theorem cscale_one (a : Cx) : cscale a 1 = a := by
  simp [cscale]

/-- Rescaling an amplitude of positive squared norm to target squared
norm `x ≥ 0` (the T1 branch's `cscale a (sqrt (x / cnorm2 a))`). -/
theorem cnorm2_rescale (a : Cx) (x : ℝ) (hx : 0 ≤ x) (ha : 0 < cnorm2 a) :
    cnorm2 (cscale a (Real.sqrt (x / cnorm2 a))) = x := by
  rw [cnorm2_cscale, Real.sq_sqrt (div_nonneg hx ha.le)]
  field_simp

/-- normalize is the identity on a state of unit squared norm. -/
theorem normalize_eq_self (s : EngineState) (h : norm2 s = 1) : normalize s = s := by
  unfold normalize
  rw [show cnorm2 s.alpha + cnorm2 s.beta = 1 from h, Real.sqrt_one]
  rw [if_pos (by norm_num)]
  cases s with
  | mk a b bz l => simp [cscale_one]

/-- normalize yields an exactly unit squared norm whenever the incoming
squared norm is above the floor `(1e-10)² = 1e-20`. -/
theorem norm2_normalize (s : EngineState) (h : 1e-20 < norm2 s) :
    norm2 (normalize s) = 1 := by
  have hpos : 0 < cnorm2 s.alpha + cnorm2 s.beta := by
    have := h; unfold norm2 at this; nlinarith
  have hroot : (1e-10 : ℝ) < Real.sqrt (cnorm2 s.alpha + cnorm2 s.beta) := by
    rw [show (1e-10 : ℝ) = Real.sqrt 1e-20 by
      rw [show (1e-20 : ℝ) = (1e-10) ^ 2 by norm_num, Real.sqrt_sq (by norm_num)]]
    exact (Real.sqrt_lt_sqrt_iff (by norm_num)).mpr (by unfold norm2 at h; linarith)
  unfold normalize
  rw [if_pos hroot]
  unfold norm2 at *
  simp only [cnorm2_cscale]
  have hsq : Real.sqrt (cnorm2 s.alpha + cnorm2 s.beta) ^ 2
      = cnorm2 s.alpha + cnorm2 s.beta := Real.sq_sqrt hpos.le
  have hne : Real.sqrt (cnorm2 s.alpha + cnorm2 s.beta) ≠ 0 := by positivity
  field_simp

/-- The `(c, s)` rotation used by the Rabi drive and by Rx scales the
total squared norm by `c² + s²` (a pure ring identity). -/
theorem rot_x_norm (a b : Cx) (c s : ℝ) :
    cnorm2 (cadd (cscale a c) (cmul ⟨0, -s⟩ b)) +
      cnorm2 (cadd (cmul ⟨0, -s⟩ a) (cscale b c)) =
    (c ^ 2 + s ^ 2) * (cnorm2 a + cnorm2 b) := by
  simp only [cnorm2, cadd, cmul, cscale]
  ring

/-- Same identity for the real rotation used by Ry. -/
theorem rot_y_norm (a b : Cx) (c s : ℝ) :
    cnorm2 (cadd (cscale a c) (cscale b (-s))) +
      cnorm2 (cadd (cscale a s) (cscale b c)) =
    (c ^ 2 + s ^ 2) * (cnorm2 a + cnorm2 b) := by
  simp only [cnorm2, cadd, cscale]
  ring

/-- The Hadamard images `(α+β)/√2`, `(α−β)/√2` keep the squared norm. -/
theorem hadamard_norm (a b : Cx) :
    cnorm2 (cscale (cadd a b) (1 / Real.sqrt 2)) +
      cnorm2 (cscale (csub a b) (1 / Real.sqrt 2)) = cnorm2 a + cnorm2 b := by
  have h2 : Real.sqrt 2 ^ 2 = 2 := Real.sq_sqrt (by norm_num)
  have hne : Real.sqrt 2 ≠ 0 := by positivity
  simp only [cnorm2_cscale]
  have : cnorm2 (cadd a b) + cnorm2 (csub a b) = 2 * (cnorm2 a + cnorm2 b) := by
    simp only [cnorm2, cadd, csub]; ring
  field_simp
  nlinarith [this, h2]

/-- Every branch of the gate switch is norm-preserving. -/
theorem gateTransform_norm (g : String) (param : Option ℝ) (a b a' b' : Cx)
    (h : gateTransform g param a b = some (a', b')) :
    cnorm2 a' + cnorm2 b' = cnorm2 a + cnorm2 b := by
  unfold gateTransform at h
  split_ifs at h <;>
    simp only [Option.some.injEq, Prod.mk.injEq] at h
  case _ =>
    obtain ⟨rfl, rfl⟩ := h; ring
  case _ =>
    obtain ⟨rfl, rfl⟩ := h
    simp only [cnorm2_cmul]
    simp only [cnorm2]
    ring
  case _ =>
    obtain ⟨rfl, rfl⟩ := h
    simp only [cnorm2_cscale]
    ring
  case _ =>
    obtain ⟨rfl, rfl⟩ := h
    exact hadamard_norm a b
  case _ =>
    obtain ⟨rfl, rfl⟩ := h
    simp only [cnorm2_cmul]
    simp only [cnorm2]
    ring
  case _ =>
    obtain ⟨rfl, rfl⟩ := h
    rw [cnorm2_cmul, cnorm2_cexp]
    ring
  case _ =>
    obtain ⟨rfl, rfl⟩ := h
    rw [rot_x_norm, Real.cos_sq_add_sin_sq, one_mul]
  case _ =>
    obtain ⟨rfl, rfl⟩ := h
    rw [rot_y_norm, Real.cos_sq_add_sin_sq, one_mul]
  case _ =>
    obtain ⟨rfl, rfl⟩ := h
    rw [cnorm2_cmul, cnorm2_cmul, cnorm2_cexp, cnorm2_cexp]
    ring

theorem norm2_set_log (s : EngineState) (l : List LogEntry) :
    norm2 { s with gateLog := l } = norm2 s := rfl

/-- Multiplying both amplitudes by unit-phase factors keeps the norm. -/
theorem norm2_set_phases (s : EngineState) (x y : ℝ) :
    norm2 { s with alpha := cmul s.alpha (cexp x), beta := cmul s.beta (cexp y) }
      = norm2 s := by
  unfold norm2
  simp only [cnorm2_cmul, cnorm2_cexp, mul_one]

/-- Applying unit phase factors and then normalize yields unit norm. -/
theorem norm2_mk_phases (a b : Cx) (bz : ℝ) (l : List LogEntry) (x y : ℝ)
    (h : cnorm2 a + cnorm2 b = 1) :
    norm2 (normalize (EngineState.mk (cmul a (cexp x)) (cmul b (cexp y)) bz l)) = 1 := by
  apply norm2_normalize
  show (1e-20 : ℝ) < cnorm2 (cmul a (cexp x)) + cnorm2 (cmul b (cexp y))
  simp only [cnorm2_cmul, cnorm2_cexp, mul_one]
  rw [h]
  norm_num

/-- evolve keeps the squared norm at exactly 1. -/
theorem norm2_evolve (dt : ℝ) (p : Bool) (s : EngineState) (h : norm2 s = 1) :
    norm2 (evolve dt p s) = 1 := by
  cases p with
  | false =>
    unfold evolve
    simp only [Bool.false_eq_true, if_false]
    exact norm2_mk_phases s.alpha s.beta s.Bz s.gateLog _ _ h
  | true =>
    unfold evolve
    simp only [eq_self_iff_true, if_true]
    refine norm2_mk_phases _ _ _ _ _ _ ?_
    rw [rot_x_norm, Real.cos_sq_add_sin_sq, one_mul]
    exact h

/-- applyGate keeps the squared norm at exactly 1 (unknown ids included). -/
theorem norm2_applyGate (g : String) (param : Option ℝ) (s : EngineState)
    (h : norm2 s = 1) : norm2 (applyGate g param s) = 1 := by
  unfold applyGate
  cases hg : gateTransform g param s.alpha s.beta with
  | none => exact h
  | some ab =>
    obtain ⟨a', b'⟩ := ab
    have hn : cnorm2 a' + cnorm2 b' = 1 := by
      rw [gateTransform_norm g param s.alpha s.beta a' b' hg]; exact h
    dsimp only
    rw [norm2_set_log]
    apply norm2_normalize
    show (1e-20 : ℝ) < cnorm2 a' + cnorm2 b'
    rw [hn]; norm_num

theorem applyT1_skip (simDt : ℝ) (deco : DecoState) (s : EngineState)
    (h : ¬(0 < deco.T1 ∧ deco.T1 < 1e6)) : applyT1 simDt deco s = s := by
  unfold applyT1
  rw [if_neg h]

/-- The T2 phase kick never changes either population. -/
theorem applyT2_pops (simDt rand : ℝ) (deco : DecoState) (s : EngineState) :
    cnorm2 (applyT2 simDt rand deco s).alpha = cnorm2 s.alpha ∧
      cnorm2 (applyT2 simDt rand deco s).beta = cnorm2 s.beta := by
  unfold applyT2
  dsimp only
  split_ifs <;> constructor <;>
    simp [cnorm2_cmul, cnorm2_cexp]

theorem norm2_applyT2 (simDt rand : ℝ) (deco : DecoState) (s : EngineState) :
    norm2 (applyT2 simDt rand deco s) = norm2 s := by
  have h := applyT2_pops simDt rand deco s
  unfold norm2
  rw [h.1, h.2]

/-- Core bound for the normalization invariant: under a nonnegative
time step, a thermal probability in [0, 1] and a T1 decay factor of at
least 1e-9, the T1 step leaves a squared norm above the normalize
floor 1e-20. -/
theorem norm2_applyT1_lb (simDt : ℝ) (deco : DecoState) (s : EngineState)
    (h : norm2 s = 1) (hdt : 0 ≤ simDt)
    (hpe0 : 0 ≤ deco.thermalExcitation) (hpe1 : deco.thermalExcitation ≤ 1)
    (hdecay : 0 < deco.T1 ∧ deco.T1 < 1e6 → 1e-9 ≤ Real.exp (-simDt / deco.T1)) :
    1e-20 < norm2 (applyT1 simDt deco s) := by
  unfold applyT1
  unfold norm2 at h ⊢
  dsimp only
  split_ifs with hT1 ha hb hb2
  · -- both amplitudes rescaled: the squared norm is exactly 1
    rw [cnorm2_rescale _ _
          (sub_nonneg.mpr (max_le (by norm_num) (min_le_left _ _))) (by linarith),
        cnorm2_rescale _ _ (le_max_left _ _) (by linarith)]
    norm_num
  · -- α rescaled, β left: squared norm ≥ newP0 ≥ 1e-9 − 1e-12
    have hd1 : Real.exp (-simDt / deco.T1) ≤ 1 := by
      have hq : -simDt / deco.T1 ≤ 0 := by
        rw [neg_div]
        exact neg_nonpos.mpr (div_nonneg hdt hT1.1.le)
      calc Real.exp (-simDt / deco.T1) ≤ Real.exp 0 := Real.exp_le_exp.mpr hq
        _ = 1 := Real.exp_zero
    have hd0 : (1e-9 : ℝ) ≤ Real.exp (-simDt / deco.T1) := hdecay hT1
    have hb' : cnorm2 s.beta ≤ 1e-12 := le_of_not_lt hb
    have hb0 : 0 ≤ cnorm2 s.beta := cnorm2_nonneg _
    rw [cnorm2_rescale _ _
          (sub_nonneg.mpr (max_le (by norm_num) (min_le_left _ _))) (by linarith)]
    have hcl : max 0 (min 1 (deco.thermalExcitation +
        (cnorm2 s.beta - deco.thermalExcitation) * Real.exp (-simDt / deco.T1)))
        ≤ 1e-12 + (1 - 1e-9) := by
      have hnew : deco.thermalExcitation +
          (cnorm2 s.beta - deco.thermalExcitation) * Real.exp (-simDt / deco.T1)
          ≤ 1e-12 + (1 - 1e-9) := by
        nlinarith [mul_le_mul_of_nonneg_left hd1 hb0,
          mul_le_mul_of_nonneg_right hpe1 (sub_nonneg.mpr hd1)]
      exact max_le (by norm_num) (le_trans (min_le_right _ _) hnew)
    linarith [cnorm2_nonneg s.beta]
  · -- β rescaled, α left: squared norm ≥ clampedP1 ≥ (1 − 1e-12)·1e-9
    have hd1 : Real.exp (-simDt / deco.T1) ≤ 1 := by
      have hq : -simDt / deco.T1 ≤ 0 := by
        rw [neg_div]
        exact neg_nonpos.mpr (div_nonneg hdt hT1.1.le)
      calc Real.exp (-simDt / deco.T1) ≤ Real.exp 0 := Real.exp_le_exp.mpr hq
        _ = 1 := Real.exp_zero
    have hd0 : (1e-9 : ℝ) ≤ Real.exp (-simDt / deco.T1) := hdecay hT1
    have ha' : cnorm2 s.alpha ≤ 1e-12 := le_of_not_lt ha
    have ha0 : 0 ≤ cnorm2 s.alpha := cnorm2_nonneg _
    have hb1 : (1 : ℝ) - 1e-12 ≤ cnorm2 s.beta := by linarith
    rw [cnorm2_rescale _ _ (le_max_left _ _) (by linarith)]
    have hnew : (1 - 1e-12 : ℝ) * 1e-9 ≤ deco.thermalExcitation +
        (cnorm2 s.beta - deco.thermalExcitation) * Real.exp (-simDt / deco.T1) := by
      nlinarith [mul_nonneg hpe0 (sub_nonneg.mpr hd1),
        mul_le_mul hb1 hd0 (by norm_num : (0:ℝ) ≤ 1e-9) (cnorm2_nonneg s.beta)]
    have hmin : (1e-20 : ℝ) < min 1 (deco.thermalExcitation +
        (cnorm2 s.beta - deco.thermalExcitation) * Real.exp (-simDt / deco.T1)) :=
      lt_min (by norm_num) (by nlinarith)
    have hmax := le_max_right (0 : ℝ) (min 1 (deco.thermalExcitation +
        (cnorm2 s.beta - deco.thermalExcitation) * Real.exp (-simDt / deco.T1)))
    linarith [cnorm2_nonneg s.alpha]
  · -- neither rescaled is impossible for a unit-norm state
    exfalso
    have ha' : cnorm2 s.alpha ≤ 1e-12 := le_of_not_lt ha
    have hb' : cnorm2 s.beta ≤ 1e-12 := le_of_not_lt hb2
    linarith
  · -- T1 channel disabled
    rw [h]
    norm_num

/-- applyDecoherence keeps the squared norm at exactly 1 whenever the
time step is nonnegative, the snapshot's thermal probability is a
probability, and the T1 decay factor stays at or above 1e-9. -/
theorem norm2_applyDecoherence (dt : ℝ) (deco : DecoState) (rand : ℝ)
    (s : EngineState) (h : norm2 s = 1) (hdt : 0 ≤ dt)
    (hpe0 : 0 ≤ deco.thermalExcitation) (hpe1 : deco.thermalExcitation ≤ 1)
    (hdecay : 0 < deco.T1 ∧ deco.T1 < 1e6 →
      1e-9 ≤ Real.exp (-(dt * TIME_SCALE) / deco.T1)) :
    norm2 (applyDecoherence dt deco rand s) = 1 := by
  unfold applyDecoherence
  apply norm2_normalize
  rw [norm2_applyT2]
  exact norm2_applyT1_lb (dt * TIME_SCALE) deco s h
    (mul_nonneg hdt (by norm_num [TIME_SCALE])) hpe0 hpe1 hdecay

-- ── Field extraction helpers ──

/-- When the gate switch matches and the new pair has unit norm, the
final amplitudes of applyGate are exactly the switch's output. -/
theorem applyGate_fields (g : String) (param : Option ℝ) (s : EngineState)
    (a' b' : Cx) (hg : gateTransform g param s.alpha s.beta = some (a', b'))
    (hn : cnorm2 a' + cnorm2 b' = 1) :
    (applyGate g param s).alpha = a' ∧ (applyGate g param s).beta = b' := by
  unfold applyGate
  rw [hg]
  have hns : normalize { s with alpha := a', beta := b' }
      = { s with alpha := a', beta := b' } := normalize_eq_self _ hn
  dsimp only
  rw [hns]
  exact ⟨rfl, rfl⟩

/-- Populations after normalize of phase-multiplied amplitudes. -/
theorem pops_normalize_phases (a b : Cx) (bz : ℝ) (l : List LogEntry) (x y : ℝ)
    (h : cnorm2 a + cnorm2 b = 1) :
    getP0 (normalize (EngineState.mk (cmul a (cexp x)) (cmul b (cexp y)) bz l)) = cnorm2 a ∧
      getP1 (normalize (EngineState.mk (cmul a (cexp x)) (cmul b (cexp y)) bz l)) = cnorm2 b := by
  have hunit : norm2 (EngineState.mk (cmul a (cexp x)) (cmul b (cexp y)) bz l) = 1 := by
    unfold norm2
    dsimp only
    simp only [cnorm2_cmul, cnorm2_cexp, mul_one]
    exact h
  rw [normalize_eq_self _ hunit]
  constructor
  · show cnorm2 (cmul a (cexp x)) = cnorm2 a
    rw [cnorm2_cmul, cnorm2_cexp, mul_one]
  · show cnorm2 (cmul b (cexp y)) = cnorm2 b
    rw [cnorm2_cmul, cnorm2_cexp, mul_one]

-- ── Claim C3 ──

/-- Claim C3: for every temperature in [1 mK, 4000 mK] and magnetic
field in [0.1 T, 3.0 T], the environment model's computed time
constants satisfy T2 ≤ 2·T1 (the clamps T1 ∈ [1e-9, 100] and
T2 ≥ 1e-9 never break the bound). -/
theorem c3_T2_le_two_T1 (temperature Bfield : ℝ)
    (ht1 : 1 ≤ temperature) (ht2 : temperature ≤ 4000)
    (hb1 : 0.1 ≤ Bfield) (hb2 : Bfield ≤ 3) :
    (computePhysics temperature Bfield).T2
      ≤ 2 * (computePhysics temperature Bfield).T1 := by
  unfold computePhysics
  dsimp only
  have hT1lb : (1e-9 : ℝ) ≤ min 100 (max 1e-9
      (1 / ((1 / Deco.T1_REF) * (max (temperature / 1000) 0.001 / Deco.T_REF) +
        0.001 * (max (temperature / 1000) 0.001 / Deco.T_REF) * Bfield ^ 4 +
        1e-8 * (max (temperature / 1000) 0.001 / Deco.T_REF) ^ 7 +
        if -(0.1e-3 * 1.602e-19) / (Deco.KB * max (temperature / 1000) 0.001) > -500 then
          1e3 * Real.exp (-(0.1e-3 * 1.602e-19) / (Deco.KB * max (temperature / 1000) 0.001))
        else 0))) :=
    le_min (by norm_num) (le_max_left _ _)
  exact max_le (by linarith) (min_le_right _ _)

theorem c3_witness :
    ((1 : ℝ) ≤ 20 ∧ (20 : ℝ) ≤ 4000 ∧ (0.1 : ℝ) ≤ 1 ∧ (1 : ℝ) ≤ 3) ∧
      (computePhysics 20 1).T2 ≤ 2 * (computePhysics 20 1).T1 :=
  ⟨by norm_num, c3_T2_le_two_T1 20 1 (by norm_num) (by norm_num) (by norm_num) (by norm_num)⟩

-- ── Claim C8 ──

/-- Claim C8: for every gate identifier outside {X, Y, Z, H, S, T, Rx,
Ry, Rz} and every parameter, applyGate is a silent no-op: the state is
unchanged and no log entry is appended (the function is total, so no
error can be raised). -/
theorem c8_unknown_gate_noop (g : String) (param : Option ℝ) (s : EngineState)
    (hg : g ∉ (["X", "Y", "Z", "H", "S", "T", "Rx", "Ry", "Rz"] : List String)) :
    applyGate g param s = s := by
  simp only [List.mem_cons, List.not_mem_nil, or_false, not_or] at hg
  obtain ⟨h1, h2, h3, h4, h5, h6, h7, h8, h9⟩ := hg
  unfold applyGate gateTransform
  rw [if_neg h1, if_neg h2, if_neg h3, if_neg h4, if_neg h5, if_neg h6, if_neg h7,
    if_neg h8, if_neg h9]

theorem c8_witness :
    ("CNOT" : String) ∉ (["X", "Y", "Z", "H", "S", "T", "Rx", "Ry", "Rz"] : List String) ∧
      applyGate "CNOT" none initState = initState :=
  ⟨by decide, c8_unknown_gate_noop "CNOT" none initState (by decide)⟩

-- ── Claim C6 ──

/-- Claim C6: measure draws result ∈ {0,1} with the threshold rule
`result = 1 ↔ u < |β|²` on the uniform draw `u` (so P(1) = |β|² for a
uniform u), collapses to the exact matching basis state, appends a log
entry containing the result, and returns the result; on a state with
β = 0 it returns 0 and leaves the state at |0⟩ for every draw u ≥ 0. -/
theorem c6_measure (u : ℝ) (s : EngineState) (hu : 0 ≤ u) :
    (measure u s).1 = (if u < cnorm2 s.beta then 1 else 0)
    ∧ ((measure u s).1 = 1 →
        (measure u s).2.alpha = ⟨0, 0⟩ ∧ (measure u s).2.beta = ⟨1, 0⟩)
    ∧ ((measure u s).1 = 0 →
        (measure u s).2.alpha = ⟨1, 0⟩ ∧ (measure u s).2.beta = ⟨0, 0⟩)
    ∧ (measure u s).2.gateLog = s.gateLog ++
        [LogEntry.measureEntry (measure u s).1 (getP0 (measure u s).2) (getP1 (measure u s).2)]
    ∧ (cnorm2 s.beta = 0 →
        (measure u s).1 = 0 ∧ (measure u s).2.alpha = ⟨1, 0⟩ ∧ (measure u s).2.beta = ⟨0, 0⟩) := by
  unfold measure
  by_cases hlt : u < cnorm2 s.beta
  · simp only [if_pos hlt]
    refine ⟨by trivial, ?_, ?_, by trivial, ?_⟩
    · intro h
      exact ⟨by trivial, by trivial⟩
    · intro hz
      exact absurd hz one_ne_zero
    · intro hb0
      rw [hb0] at hlt
      exact absurd hlt (not_lt.mpr hu)
  · simp only [if_neg hlt]
    refine ⟨by trivial, ?_, ?_, by trivial, ?_⟩
    · intro hz
      exact absurd hz.symm one_ne_zero
    · intro h
      exact ⟨by trivial, by trivial⟩
    · intro h
      exact ⟨by trivial, by trivial, by trivial⟩

theorem c6_witness :
    (0 : ℝ) ≤ 1/2 ∧
    ((measure (1/2) initState).1 = (if (1/2 : ℝ) < cnorm2 initState.beta then 1 else 0)
    ∧ ((measure (1/2) initState).1 = 1 →
        (measure (1/2) initState).2.alpha = ⟨0, 0⟩ ∧ (measure (1/2) initState).2.beta = ⟨1, 0⟩)
    ∧ ((measure (1/2) initState).1 = 0 →
        (measure (1/2) initState).2.alpha = ⟨1, 0⟩ ∧ (measure (1/2) initState).2.beta = ⟨0, 0⟩)
    ∧ (measure (1/2) initState).2.gateLog = initState.gateLog ++
        [LogEntry.measureEntry (measure (1/2) initState).1
          (getP0 (measure (1/2) initState).2) (getP1 (measure (1/2) initState).2)]
    ∧ (cnorm2 initState.beta = 0 →
        (measure (1/2) initState).1 = 0 ∧ (measure (1/2) initState).2.alpha = ⟨1, 0⟩ ∧
          (measure (1/2) initState).2.beta = ⟨0, 0⟩)) :=
  ⟨by norm_num, c6_measure (1/2) initState (by norm_num)⟩

-- ── Claim C10 ──

/-- Claim C10: for every unit-norm state and every dt, evolve(dt, false)
(free precession only) leaves both populations |α|² and |β|² unchanged:
the Larmor phase factors are unit-modulus. -/
theorem c10_free_precession_pops (dt : ℝ) (s : EngineState) (h : norm2 s = 1) :
    getP0 (evolve dt false s) = getP0 s ∧ getP1 (evolve dt false s) = getP1 s := by
  unfold evolve
  simp only [Bool.false_eq_true, if_false]
  exact pops_normalize_phases s.alpha s.beta s.Bz s.gateLog _ _ h

theorem c10_witness :
    norm2 (EngineState.mk ⟨3/5, 0⟩ ⟨4/5, 0⟩ 1 []) = 1 ∧
    (getP0 (evolve 1 false (EngineState.mk ⟨3/5, 0⟩ ⟨4/5, 0⟩ 1 []))
        = getP0 (EngineState.mk ⟨3/5, 0⟩ ⟨4/5, 0⟩ 1 []) ∧
      getP1 (evolve 1 false (EngineState.mk ⟨3/5, 0⟩ ⟨4/5, 0⟩ 1 []))
        = getP1 (EngineState.mk ⟨3/5, 0⟩ ⟨4/5, 0⟩ 1 [])) :=
  ⟨by norm_num [norm2, cnorm2],
    c10_free_precession_pops 1 (EngineState.mk ⟨3/5, 0⟩ ⟨4/5, 0⟩ 1 [])
      (by norm_num [norm2, cnorm2])⟩

-- ── Claim C7 ──

/-- A sequence of applyDecoherence ticks, each with its own time step,
environment snapshot, and random draw. -/
def decoTicks (calls : List (ℝ × DecoState × ℝ)) (s : EngineState) : EngineState :=
  calls.foldl (fun st c => applyDecoherence c.1 c.2.1 c.2.2 st) s

/-- One T1-disabled applyDecoherence tick: p1 and the unit norm are both
preserved (the phase kick has unit modulus). -/
theorem applyDecoherence_T1_disabled_step (dt : ℝ) (deco : DecoState) (rand : ℝ)
    (s : EngineState) (h : norm2 s = 1) (hT1 : 1e6 ≤ deco.T1) :
    getP1 (applyDecoherence dt deco rand s) = getP1 s ∧
      norm2 (applyDecoherence dt deco rand s) = 1 := by
  unfold applyDecoherence
  rw [applyT1_skip _ _ _ (fun hc => absurd hc.2 (not_lt.mpr hT1))]
  have hp := applyT2_pops (dt * TIME_SCALE) rand deco s
  have hn : norm2 (applyT2 (dt * TIME_SCALE) rand deco s) = 1 := by
    rw [norm2_applyT2]; exact h
  rw [normalize_eq_self _ hn]
  exact ⟨hp.2, hn⟩

/-- Claim C7: when every snapshot in the sequence has T1 ≥ 1e6 s (the
T1 channel disabled), arbitrarily many applyDecoherence calls leave
p1 = |β|² unchanged, for every unit-norm state, every dt, every T2 and
every random phase-kick draw. -/
theorem c7_T1_disabled_p1_const (s : EngineState) (h : norm2 s = 1)
    (calls : List (ℝ × DecoState × ℝ)) (hall : ∀ c ∈ calls, 1e6 ≤ c.2.1.T1) :
    getP1 (decoTicks calls s) = getP1 s := by
  induction calls generalizing s with
  | nil => rfl
  | cons c cs ih =>
    have hstep := applyDecoherence_T1_disabled_step c.1 c.2.1 c.2.2 s h
      (hall c (by simp))
    have hrw : decoTicks (c :: cs) s
        = decoTicks cs (applyDecoherence c.1 c.2.1 c.2.2 s) := rfl
    rw [hrw, ih (applyDecoherence c.1 c.2.1 c.2.2 s) hstep.2
      (fun d hd => hall d (List.mem_cons_of_mem c hd)), hstep.1]

theorem c7_witness :
    norm2 (EngineState.mk ⟨3/5, 0⟩ ⟨4/5, 0⟩ 1 []) = 1 ∧
    (∀ c ∈ ([(2, ⟨1e7, 1, 0⟩, 1/3), (5, ⟨2e6, 3, 1/2⟩, 2/3)] :
        List (ℝ × DecoState × ℝ)), 1e6 ≤ c.2.1.T1) ∧
    getP1 (decoTicks [(2, ⟨1e7, 1, 0⟩, 1/3), (5, ⟨2e6, 3, 1/2⟩, 2/3)]
        (EngineState.mk ⟨3/5, 0⟩ ⟨4/5, 0⟩ 1 []))
      = getP1 (EngineState.mk ⟨3/5, 0⟩ ⟨4/5, 0⟩ 1 []) :=
  ⟨by norm_num [norm2, cnorm2],
    by
      intro c hc
      simp only [List.mem_cons, List.not_mem_nil, or_false] at hc
      rcases hc with rfl | rfl <;> norm_num,
    c7_T1_disabled_p1_const (EngineState.mk ⟨3/5, 0⟩ ⟨4/5, 0⟩ 1 [])
      (by norm_num [norm2, cnorm2]) _
      (by
        intro c hc
        simp only [List.mem_cons, List.not_mem_nil, or_false] at hc
        rcases hc with rfl | rfl <;> norm_num)⟩

-- ── Claim C4 ──

/-- Claim C4: starting from |0⟩, applyGate('X') gives p0=0, p1=1 and a
second applyGate('X') restores p0=1, p1=0; applyGate('H') gives
p0=p1=0.5 and a second applyGate('H') restores p0=1, p1=0 (here even
exactly, which implies the claimed tolerance). -/
theorem c4_x_involution_h_self_inverse :
    getP0 (applyGate "X" none initState) = 0 ∧
    getP1 (applyGate "X" none initState) = 1 ∧
    getP0 (applyGate "X" none (applyGate "X" none initState)) = 1 ∧
    getP1 (applyGate "X" none (applyGate "X" none initState)) = 0 ∧
    getP0 (applyGate "H" none initState) = 1/2 ∧
    getP1 (applyGate "H" none initState) = 1/2 ∧
    getP0 (applyGate "H" none (applyGate "H" none initState)) = 1 ∧
    getP1 (applyGate "H" none (applyGate "H" none initState)) = 0 := by
  have hsqrt2 : Real.sqrt 2 * Real.sqrt 2 = 2 := Real.mul_self_sqrt (by norm_num)
  have hs2ne : Real.sqrt 2 ≠ 0 := by positivity
  -- first X
  have hX1 := applyGate_fields "X" none initState (⟨0, 0⟩ : Cx) (⟨1, 0⟩ : Cx)
    (by simp [gateTransform, initState]) (by norm_num [cnorm2])
  -- second X
  have hX2 := applyGate_fields "X" none (applyGate "X" none initState)
    (⟨1, 0⟩ : Cx) (⟨0, 0⟩ : Cx)
    (by rw [show (applyGate "X" none initState).alpha = ⟨0, 0⟩ from hX1.1,
            show (applyGate "X" none initState).beta = ⟨1, 0⟩ from hX1.2]
        simp [gateTransform])
    (by norm_num [cnorm2])
  -- first H
  have hH1 := applyGate_fields "H" none initState
    (cscale (cadd ⟨1, 0⟩ ⟨0, 0⟩) (1 / Real.sqrt 2))
    (cscale (csub ⟨1, 0⟩ ⟨0, 0⟩) (1 / Real.sqrt 2))
    (by simp [gateTransform, initState])
    (by field_simp [cnorm2, cscale, cadd, csub])
  -- second H
  have hH2 := applyGate_fields "H" none (applyGate "H" none initState)
    (cscale (cadd (cscale (cadd ⟨1, 0⟩ ⟨0, 0⟩) (1 / Real.sqrt 2))
        (cscale (csub ⟨1, 0⟩ ⟨0, 0⟩) (1 / Real.sqrt 2))) (1 / Real.sqrt 2))
    (cscale (csub (cscale (cadd ⟨1, 0⟩ ⟨0, 0⟩) (1 / Real.sqrt 2))
        (cscale (csub ⟨1, 0⟩ ⟨0, 0⟩) (1 / Real.sqrt 2))) (1 / Real.sqrt 2))
    (by rw [show (applyGate "H" none initState).alpha = _ from hH1.1,
            show (applyGate "H" none initState).beta = _ from hH1.2]
        simp [gateTransform])
    (by field_simp [cnorm2, cscale, cadd, csub])
  refine ⟨?_, ?_, ?_, ?_, ?_, ?_, ?_, ?_⟩
  · rw [getP0, hX1.1]; norm_num [cnorm2]
  · rw [getP1, hX1.2]; norm_num [cnorm2]
  · rw [getP0, hX2.1]; norm_num [cnorm2]
  · rw [getP1, hX2.2]; norm_num [cnorm2]
  · rw [getP0, hH1.1]
    field_simp [cnorm2, cscale, cadd]
  · rw [getP1, hH1.2]
    field_simp [cnorm2, cscale, csub]
  · rw [getP0, hH2.1]
    field_simp [cnorm2, cscale, cadd, csub]
  · rw [getP1, hH2.2]
    field_simp [cnorm2, cscale, cadd, csub]

-- ── Claim C5 ──

/-- Claim C5 counterexample: with the parameter 0 supplied, the claimed
half-angle formula at t = 0/2 would leave `|0⟩` unchanged (p1 = 0), but
the source's `param || Math.PI / 2` treats 0 as missing, so the gate
actually applies t = π/4 and yields p1 = 1/2. -/
theorem c5_counterexample :
    getP1 (applyGate "Rx" (some 0) initState)
      ≠ cnorm2 (cadd (cmul ⟨0, -Real.sin (0 / 2)⟩ initState.alpha)
          (cscale initState.beta (Real.cos (0 / 2)))) := by
  have hang : Real.pi / 2 / 2 = Real.pi / 4 := by ring
  have hs2 : Real.sqrt 2 * Real.sqrt 2 = 2 := Real.mul_self_sqrt (by norm_num)
  have hfields := applyGate_fields "Rx" (some 0) initState
    (cadd (cscale ⟨1, 0⟩ (Real.cos (Real.pi / 2 / 2)))
      (cmul ⟨0, -Real.sin (Real.pi / 2 / 2)⟩ ⟨0, 0⟩))
    (cadd (cmul ⟨0, -Real.sin (Real.pi / 2 / 2)⟩ ⟨1, 0⟩)
      (cscale ⟨0, 0⟩ (Real.cos (Real.pi / 2 / 2))))
    (by simp [gateTransform, jsDefault, initState])
    (by simp only [cnorm2, cadd, cmul, cscale]
        nlinarith [Real.sin_sq_add_cos_sq (Real.pi / 2 / 2)])
  have hlhs : getP1 (applyGate "Rx" (some 0) initState) = 1 / 2 := by
    rw [getP1, hfields.2]
    simp only [cnorm2, cadd, cmul, cscale, hang, Real.sin_pi_div_four]
    nlinarith [hs2]
  have hrhs : cnorm2 (cadd (cmul ⟨0, -Real.sin (0 / 2)⟩ initState.alpha)
      (cscale initState.beta (Real.cos (0 / 2)))) = 0 := by
    simp [cnorm2, cadd, cmul, cscale, initState]
  rw [hlhs, hrhs]
  norm_num

/-- Claim C5 (amended): for every nonzero θ, applyGate('Rx', θ) applies
the half-angle rotation t = θ/2 with α' = α·cos t − iβ·sin t and
β' = −iα·sin t + β·cos t (on a unit-norm state); an omitted parameter
defaults to θ = π/2.  But the JS `param || π/2` default also fires for
the supplied falsy value θ = 0, so applyGate('Rx', 0) is the quarter
rotation t = π/4, not the identity (see the counterexample). -/
theorem c5_rx_rotation (theta : ℝ) (htheta : theta ≠ 0) (s : EngineState)
    (h : norm2 s = 1) :
    ((applyGate "Rx" (some theta) s).alpha
        = cadd (cscale s.alpha (Real.cos (theta / 2)))
            (cmul ⟨0, -Real.sin (theta / 2)⟩ s.beta) ∧
      (applyGate "Rx" (some theta) s).beta
        = cadd (cmul ⟨0, -Real.sin (theta / 2)⟩ s.alpha)
            (cscale s.beta (Real.cos (theta / 2)))) ∧
    ((applyGate "Rx" none s).alpha = (applyGate "Rx" (some (Real.pi / 2)) s).alpha ∧
      (applyGate "Rx" none s).beta = (applyGate "Rx" (some (Real.pi / 2)) s).beta) := by
  have hpi2 : Real.pi / 2 ≠ 0 := by positivity
  have hn0 : ∀ t : ℝ,
      cnorm2 (cadd (cscale s.alpha (Real.cos t)) (cmul ⟨0, -Real.sin t⟩ s.beta)) +
        cnorm2 (cadd (cmul ⟨0, -Real.sin t⟩ s.alpha) (cscale s.beta (Real.cos t))) = 1 := by
    intro t
    rw [rot_x_norm, Real.cos_sq_add_sin_sq, one_mul]
    exact h
  have hsome := applyGate_fields "Rx" (some theta) s
    (cadd (cscale s.alpha (Real.cos (theta / 2))) (cmul ⟨0, -Real.sin (theta / 2)⟩ s.beta))
    (cadd (cmul ⟨0, -Real.sin (theta / 2)⟩ s.alpha) (cscale s.beta (Real.cos (theta / 2))))
    (by simp [gateTransform, jsDefault, htheta])
    (hn0 (theta / 2))
  have hnone := applyGate_fields "Rx" none s
    (cadd (cscale s.alpha (Real.cos (Real.pi / 2 / 2)))
      (cmul ⟨0, -Real.sin (Real.pi / 2 / 2)⟩ s.beta))
    (cadd (cmul ⟨0, -Real.sin (Real.pi / 2 / 2)⟩ s.alpha)
      (cscale s.beta (Real.cos (Real.pi / 2 / 2))))
    (by simp [gateTransform, jsDefault])
    (hn0 (Real.pi / 2 / 2))
  have hdef := applyGate_fields "Rx" (some (Real.pi / 2)) s
    (cadd (cscale s.alpha (Real.cos (Real.pi / 2 / 2)))
      (cmul ⟨0, -Real.sin (Real.pi / 2 / 2)⟩ s.beta))
    (cadd (cmul ⟨0, -Real.sin (Real.pi / 2 / 2)⟩ s.alpha)
      (cscale s.beta (Real.cos (Real.pi / 2 / 2))))
    (by simp [gateTransform, jsDefault, hpi2])
    (hn0 (Real.pi / 2 / 2))
  exact ⟨⟨hsome.1, hsome.2⟩,
    ⟨hnone.1.trans hdef.1.symm, hnone.2.trans hdef.2.symm⟩⟩

theorem c5_witness :
    (Real.pi ≠ 0 ∧ norm2 initState = 1) ∧
    (((applyGate "Rx" (some Real.pi) initState).alpha
        = cadd (cscale initState.alpha (Real.cos (Real.pi / 2)))
            (cmul ⟨0, -Real.sin (Real.pi / 2)⟩ initState.beta) ∧
      (applyGate "Rx" (some Real.pi) initState).beta
        = cadd (cmul ⟨0, -Real.sin (Real.pi / 2)⟩ initState.alpha)
            (cscale initState.beta (Real.cos (Real.pi / 2)))) ∧
    ((applyGate "Rx" none initState).alpha
        = (applyGate "Rx" (some (Real.pi / 2)) initState).alpha ∧
      (applyGate "Rx" none initState).beta
        = (applyGate "Rx" (some (Real.pi / 2)) initState).beta)) :=
  ⟨⟨Real.pi_ne_zero, by norm_num [norm2, cnorm2, initState]⟩,
    c5_rx_rotation Real.pi Real.pi_ne_zero initState
      (by norm_num [norm2, cnorm2, initState])⟩

-- ── Claim C2 ──

theorem applyT2_skip (simDt rand : ℝ) (deco : DecoState) (s : EngineState)
    (h : ¬(0 < deco.T2 ∧ deco.T2 < 1e6)) : applyT2 simDt rand deco s = s := by
  unfold applyT2
  rw [if_neg h]

theorem applyT1_beta_zero (simDt : ℝ) (deco : DecoState) (s : EngineState)
    (h : s.beta = ⟨0, 0⟩) : (applyT1 simDt deco s).beta = ⟨0, 0⟩ := by
  unfold applyT1
  dsimp only
  split_ifs <;> simp [h, cscale]

theorem applyT2_beta_zero (simDt rand : ℝ) (deco : DecoState) (s : EngineState)
    (h : s.beta = ⟨0, 0⟩) : (applyT2 simDt rand deco s).beta = ⟨0, 0⟩ := by
  unfold applyT2
  dsimp only
  split_ifs <;> simp [h, cmul]

theorem normalize_beta_zero (s : EngineState) (h : s.beta = ⟨0, 0⟩) :
    (normalize s).beta = ⟨0, 0⟩ := by
  unfold normalize
  dsimp only
  split_ifs <;> simp [h, cscale]

/-- Claim C2 counterexample: on the state |0⟩ (where |β|² = 0 is below
the 1e-12 rescale guard) with snapshot (T1 = 1 s, T2 = 0 disabled,
thermal probability 1/2) and dt = 2e7 (simDt = 1 s), β stays exactly 0
while the claimed clamp formula gives the positive value
(1 − e⁻¹)/2, so the claimed population is not attained. -/
theorem c2_counterexample :
    cnorm2 (applyDecoherence 2e7 ⟨1, 0, 1/2⟩ 0 initState).beta
      ≠ max 0 (min 1 ((1 : ℝ)/2 + (cnorm2 initState.beta - 1/2) *
          Real.exp (-(2e7 * TIME_SCALE) / 1))) := by
  have hbeta : (applyDecoherence 2e7 ⟨1, 0, 1/2⟩ 0 initState).beta = ⟨0, 0⟩ := by
    unfold applyDecoherence
    apply normalize_beta_zero
    apply applyT2_beta_zero
    apply applyT1_beta_zero
    rfl
  rw [hbeta]
  have h0 : cnorm2 (⟨0, 0⟩ : Cx) = 0 := by norm_num [cnorm2]
  have h0' : cnorm2 initState.beta = 0 := by norm_num [initState, cnorm2]
  have hexp : (-(2e7 * TIME_SCALE) / 1 : ℝ) = -1 := by norm_num [TIME_SCALE]
  rw [h0, h0', hexp]
  have h1 : Real.exp (-1) < 1 := by
    calc Real.exp (-1) < Real.exp 0 := Real.exp_lt_exp.mpr (by norm_num)
      _ = 1 := Real.exp_zero
  have h2 : 0 < Real.exp (-1) := Real.exp_pos _
  have hv : (0 : ℝ) < 1/2 + (0 - 1/2) * Real.exp (-1) := by nlinarith
  have hv1 : (1 : ℝ)/2 + (0 - 1/2) * Real.exp (-1) < 1 := by nlinarith
  intro hcontra
  rw [min_eq_right hv1.le, max_eq_right hv.le] at hcontra
  linarith [hcontra ▸ hv]

/-- Claim C2 (amended): whenever both rescale guards pass — the prior
populations satisfy |α|² > 1e-12 and |β|² > 1e-12 — and the T2 channel
is disabled (T2 ≤ 0 or T2 ≥ 1e6) while 0 < T1 < 1e6, applyDecoherence
sets the excited population to exactly
clamp(p_eq + (p1 − p_eq)·exp(−dt·TIME_SCALE/T1), 0, 1) and multiplies
each amplitude by a nonnegative real factor (phases preserved).  The
original claim fails for states whose β (or α) population is at or
below the 1e-12 guard, where the corresponding amplitude is left
untouched and the final normalize redistributes the weight (see the
counterexample). -/
theorem c2_t1_relaxation (dt : ℝ) (deco : DecoState) (rand : ℝ) (s : EngineState)
    (hT1a : 0 < deco.T1) (hT1b : deco.T1 < 1e6)
    (hT2 : deco.T2 ≤ 0 ∨ 1e6 ≤ deco.T2)
    (ha : 1e-12 < cnorm2 s.alpha) (hb : 1e-12 < cnorm2 s.beta) :
    cnorm2 (applyDecoherence dt deco rand s).beta
      = max 0 (min 1 (deco.thermalExcitation +
          (cnorm2 s.beta - deco.thermalExcitation) *
            Real.exp (-(dt * TIME_SCALE) / deco.T1))) ∧
    (∃ ca : ℝ, 0 ≤ ca ∧ (applyDecoherence dt deco rand s).alpha = cscale s.alpha ca) ∧
    (∃ cb : ℝ, 0 ≤ cb ∧ (applyDecoherence dt deco rand s).beta = cscale s.beta cb) := by
  have hT2cond : ¬(0 < deco.T2 ∧ deco.T2 < 1e6) := by
    rintro ⟨hx, hy⟩
    rcases hT2 with hz | hz <;> linarith
  have hT1state : applyT1 (dt * TIME_SCALE) deco s =
      { s with
        alpha := cscale s.alpha (Real.sqrt
          ((1 - max 0 (min 1 (deco.thermalExcitation +
              (cnorm2 s.beta - deco.thermalExcitation) *
                Real.exp (-(dt * TIME_SCALE) / deco.T1)))) / cnorm2 s.alpha))
        beta := cscale s.beta (Real.sqrt
          ((max 0 (min 1 (deco.thermalExcitation +
              (cnorm2 s.beta - deco.thermalExcitation) *
                Real.exp (-(dt * TIME_SCALE) / deco.T1)))) / cnorm2 s.beta)) } := by
    unfold applyT1
    dsimp only
    rw [if_pos ⟨hT1a, hT1b⟩, if_pos ha, if_pos hb]
  have hclamp0 : (0 : ℝ) ≤ max 0 (min 1 (deco.thermalExcitation +
      (cnorm2 s.beta - deco.thermalExcitation) *
        Real.exp (-(dt * TIME_SCALE) / deco.T1))) := le_max_left _ _
  have hclamp1 : max 0 (min 1 (deco.thermalExcitation +
      (cnorm2 s.beta - deco.thermalExcitation) *
        Real.exp (-(dt * TIME_SCALE) / deco.T1))) ≤ 1 :=
    max_le (by norm_num) (min_le_left _ _)
  have hnorm : norm2 (applyT1 (dt * TIME_SCALE) deco s) = 1 := by
    rw [hT1state]
    unfold norm2
    dsimp only
    rw [cnorm2_rescale _ _ (by linarith) (by linarith),
        cnorm2_rescale _ _ hclamp0 (by linarith)]
    ring
  have hfull : applyDecoherence dt deco rand s = applyT1 (dt * TIME_SCALE) deco s := by
    unfold applyDecoherence
    rw [applyT2_skip _ _ _ _ hT2cond, normalize_eq_self _ hnorm]
  rw [hfull, hT1state]
  refine ⟨?_, ⟨_, Real.sqrt_nonneg _, rfl⟩, ⟨_, Real.sqrt_nonneg _, rfl⟩⟩
  show cnorm2 (cscale s.beta _) = _
  rw [cnorm2_rescale _ _ hclamp0 (by linarith)]

theorem c2_witness :
    ((0 : ℝ) < 1 ∧ (1 : ℝ) < 1e6 ∧ ((0 : ℝ) ≤ 0 ∨ (1e6 : ℝ) ≤ 0) ∧
      (1e-12 : ℝ) < cnorm2 (EngineState.mk ⟨3/5, 0⟩ ⟨4/5, 0⟩ 1 []).alpha ∧
      (1e-12 : ℝ) < cnorm2 (EngineState.mk ⟨3/5, 0⟩ ⟨4/5, 0⟩ 1 []).beta) ∧
    (cnorm2 (applyDecoherence 0 ⟨1, 0, 1/2⟩ 0 (EngineState.mk ⟨3/5, 0⟩ ⟨4/5, 0⟩ 1 [])).beta
      = max 0 (min 1 ((1/2 : ℝ) +
          (cnorm2 (EngineState.mk ⟨3/5, 0⟩ ⟨4/5, 0⟩ 1 []).beta - 1/2) *
            Real.exp (-(0 * TIME_SCALE) / 1))) ∧
    (∃ ca : ℝ, 0 ≤ ca ∧
      (applyDecoherence 0 ⟨1, 0, 1/2⟩ 0 (EngineState.mk ⟨3/5, 0⟩ ⟨4/5, 0⟩ 1 [])).alpha
        = cscale (EngineState.mk ⟨3/5, 0⟩ ⟨4/5, 0⟩ 1 []).alpha ca) ∧
    (∃ cb : ℝ, 0 ≤ cb ∧
      (applyDecoherence 0 ⟨1, 0, 1/2⟩ 0 (EngineState.mk ⟨3/5, 0⟩ ⟨4/5, 0⟩ 1 [])).beta
        = cscale (EngineState.mk ⟨3/5, 0⟩ ⟨4/5, 0⟩ 1 []).beta cb)) :=
  ⟨⟨by norm_num, by norm_num, Or.inl (by norm_num), by norm_num [cnorm2], by norm_num [cnorm2]⟩,
    c2_t1_relaxation 0 ⟨1, 0, 1/2⟩ 0 (EngineState.mk ⟨3/5, 0⟩ ⟨4/5, 0⟩ 1 [])
      (by norm_num) (by norm_num) (Or.inl (by norm_num))
      (by norm_num [cnorm2]) (by norm_num [cnorm2])⟩

-- ── Claim C9 ──

/-- Bounding the exponential above by powers of 2.7 < e. -/
theorem exp_le_of_le_neg_nat (x : ℝ) (n : ℕ) (h : x ≤ -(n : ℝ)) :
    Real.exp x ≤ ((2.7 : ℝ) ^ n)⁻¹ := by
  have he : (2.7 : ℝ) ≤ Real.exp 1 :=
    le_of_lt (lt_trans (by norm_num) Real.exp_one_gt_d9)
  have h2 : (2.7 : ℝ) ^ n ≤ Real.exp (n : ℝ) := by
    calc (2.7 : ℝ) ^ n ≤ (Real.exp 1) ^ n := pow_le_pow_left (by norm_num) he n
      _ = Real.exp ((n : ℝ) * 1) := (Real.exp_nat_mul 1 n).symm
      _ = Real.exp (n : ℝ) := by rw [mul_one]
  have hp : (0 : ℝ) < (2.7 : ℝ) ^ n := by positivity
  calc Real.exp x ≤ Real.exp (-(n : ℝ)) := Real.exp_le_exp.mpr h
    _ = (Real.exp (n : ℝ))⁻¹ := Real.exp_neg _
    _ ≤ ((2.7 : ℝ) ^ n)⁻¹ := inv_le_inv_of_le hp h2

/-- Claim C9: after setTemperature(20) and setBField(1.0) the model's
T1 is within ±20% of 6.0 s and its T2 within ±20% of 0.028 s. -/
theorem c9_calibration :
    4.8 ≤ (computePhysics 20 1).T1 ∧ (computePhysics 20 1).T1 ≤ 7.2 ∧
      0.0224 ≤ (computePhysics 20 1).T2 ∧ (computePhysics 20 1).T2 ≤ 0.0336 := by
  have hTk : (max ((20 : ℝ) / 1000) 0.001) = 0.02 := by
    rw [max_eq_left (by norm_num)]
    norm_num
  have h500 : (-(0.1e-3 * 1.602e-19) / (Deco.KB * 0.02) : ℝ) > -500 := by
    rw [gt_iff_lt, neg_div, neg_lt_neg_iff, div_lt_iff (by norm_num [Deco.KB])]
    norm_num [Deco.KB]
  have hE2 : Real.exp (-(0.1e-3 * 1.602e-19) / (Deco.KB * 0.02) : ℝ) ≤ ((2.7:ℝ)^(24:ℕ))⁻¹ := by
    apply exp_le_of_le_neg_nat
    rw [neg_div, neg_le_neg_iff, le_div_iff (by norm_num [Deco.KB])]
    norm_num [Deco.KB]
  have hEub : Real.exp (-(0.1e-3 * 1.602e-19) / (Deco.KB * 0.02) : ℝ) ≤ 1e-10 := by
    refine le_trans hE2 ?_
    rw [inv_le (by positivity) (by norm_num)]
    norm_num
  have hEpos : (0:ℝ) < Real.exp (-(0.1e-3 * 1.602e-19) / (Deco.KB * 0.02) : ℝ) :=
    Real.exp_pos _
  unfold computePhysics
  dsimp only
  rw [hTk, if_pos h500]
  have hjr : (1 / Deco.T1_REF * (0.02 / Deco.T_REF) : ℝ) = 1/6 := by
    norm_num [Deco.T1_REF, Deco.T_REF]
  have hdr : (0.001 * (0.02 / Deco.T_REF) * (1:ℝ) ^ 4 : ℝ) = 0.001 := by
    norm_num [Deco.T_REF]
  have hrr : (1e-8 * ((0.02 : ℝ) / Deco.T_REF) ^ 7 : ℝ) = 1e-8 := by
    norm_num [Deco.T_REF]
  rw [hjr, hdr, hrr]
  set E := Real.exp (-(0.1e-3 * 1.602e-19) / (Deco.KB * 0.02) : ℝ) with hEdef
  have hTRpos : (0:ℝ) < 1/6 + 0.001 + 1e-8 + 1e3 * E := by nlinarith
  have hTRlo : (0.1676 : ℝ) ≤ 1/6 + 0.001 + 1e-8 + 1e3 * E := by nlinarith
  have hTRhi : (1/6 + 0.001 + 1e-8 + 1e3 * E : ℝ) ≤ 0.1677 := by nlinarith
  have hxlo : (5.9 : ℝ) ≤ 1 / (1/6 + 0.001 + 1e-8 + 1e3 * E) := by
    rw [le_div_iff hTRpos]
    nlinarith
  have hxhi : 1 / (1/6 + 0.001 + 1e-8 + 1e3 * E) ≤ 6 := by
    rw [div_le_iff hTRpos]
    nlinarith
  have hmax : max 1e-9 (1 / (1/6 + 0.001 + 1e-8 + 1e3 * E)) =
      1 / (1/6 + 0.001 + 1e-8 + 1e3 * E) := max_eq_right (by linarith)
  have hmin : min 100 (max 1e-9 (1 / (1/6 + 0.001 + 1e-8 + 1e3 * E))) =
      1 / (1/6 + 0.001 + 1e-8 + 1e3 * E) := by
    rw [hmax]
    exact min_eq_right (by linarith)
  rw [hmin]
  have hphonon : (Deco.T2_REF * ((Deco.T_REF / 0.02) ^ 3) : ℝ) = 0.028 := by
    norm_num [Deco.T2_REF, Deco.T_REF]
  rw [hphonon]
  have hminT2 : min (0.028 : ℝ) (2 * (1 / (1/6 + 0.001 + 1e-8 + 1e3 * E))) = 0.028 :=
    min_eq_left (by linarith)
  rw [hminT2, max_eq_right (by norm_num : (1e-9 : ℝ) ≤ 0.028)]
  refine ⟨by linarith, by linarith, by norm_num, by norm_num⟩

-- ── Claim C1 ──

/-- One call of the driving loop: time evolution, decoherence with a
snapshot and a random draw, or a discrete gate. -/
inductive SimCall where
  | evo (dt : ℝ) (isPulsing : Bool)
  | deco (dt : ℝ) (env : DecoState) (rand : ℝ)
  | gate (g : String) (param : Option ℝ)

def runCall : SimCall → EngineState → EngineState
  | SimCall.evo dt p, s => evolve dt p s
  | SimCall.deco dt env r, s => applyDecoherence dt env r s
  | SimCall.gate g p, s => applyGate g p s

def runCalls (cs : List SimCall) (s : EngineState) : EngineState :=
  cs.foldl (fun st c => runCall c st) s

/-- The side conditions of the amended C1: decoherence calls use a
nonnegative time step, a thermal probability in [0, 1], and (when the
T1 channel is active) a decay factor of at least 1e-9. -/
def goodCall : SimCall → Prop
  | SimCall.deco dt env _ => 0 ≤ dt ∧ 0 ≤ env.thermalExcitation ∧
      env.thermalExcitation ≤ 1 ∧
      (0 < env.T1 ∧ env.T1 < 1e6 → 1e-9 ≤ Real.exp (-(dt * TIME_SCALE) / env.T1))
  | _ => True

theorem runCall_norm2 (c : SimCall) (hc : goodCall c) (s : EngineState)
    (h : norm2 s = 1) : norm2 (runCall c s) = 1 := by
  cases c with
  | evo dt p => exact norm2_evolve dt p s h
  | deco dt env r =>
    obtain ⟨h1, h2, h3, h4⟩ := hc
    exact norm2_applyDecoherence dt env r s h h1 h2 h3 h4
  | gate g p => exact norm2_applyGate g p s h

theorem runCalls_norm2 (cs : List SimCall) (hall : ∀ c ∈ cs, goodCall c)
    (s : EngineState) (h : norm2 s = 1) : norm2 (runCalls cs s) = 1 := by
  induction cs generalizing s with
  | nil => exact h
  | cons c cs ih =>
    exact ih (fun d hd => hall d (List.mem_cons_of_mem c hd)) (runCall c s)
      (runCall_norm2 c (hall c (by simp)) s h)

/-- Claim C1 (amended): for every finite sequence of evolve /
applyDecoherence / applyGate calls starting from |0⟩, in which every
applyDecoherence call has a nonnegative dt, a snapshot thermal
probability in [0, 1], and — when its T1 channel is active
(0 < T1 < 1e6) — a decay factor exp(−dt·TIME_SCALE/T1) ≥ 1e-9, the
squared norm |α|²+|β|² is exactly 1 after the sequence, hence within
[1−1e-6, 1+1e-6]; as every prefix of such a sequence is again such a
sequence, the bound holds after each call.  Without the decay-factor
bound the invariant fails (see the counterexample): the T1 step can
push the norm below the 1e-10 normalize floor, after which normalize
refuses to rescale. -/
theorem c1_norm_band (cs : List SimCall) (hall : ∀ c ∈ cs, goodCall c) :
    1 - 1e-6 ≤ norm2 (runCalls cs initState) ∧
      norm2 (runCalls cs initState) ≤ 1 + 1e-6 := by
  have h := runCalls_norm2 cs hall initState (by norm_num [norm2, cnorm2, initState])
  rw [h]
  norm_num

theorem c1_witness :
    (∀ c ∈ ([SimCall.gate "H" none, SimCall.deco 0 ⟨1, 1, 0⟩ (1/2),
        SimCall.evo 1 true] : List SimCall), goodCall c) ∧
    (1 - 1e-6 ≤ norm2 (runCalls [SimCall.gate "H" none, SimCall.deco 0 ⟨1, 1, 0⟩ (1/2),
        SimCall.evo 1 true] initState) ∧
      norm2 (runCalls [SimCall.gate "H" none, SimCall.deco 0 ⟨1, 1, 0⟩ (1/2),
        SimCall.evo 1 true] initState) ≤ 1 + 1e-6) := by
  have hgood : ∀ c ∈ ([SimCall.gate "H" none, SimCall.deco 0 ⟨1, 1, 0⟩ (1/2),
      SimCall.evo 1 true] : List SimCall), goodCall c := by
    intro c hc
    simp only [List.mem_cons, List.not_mem_nil, or_false] at hc
    rcases hc with rfl | rfl | rfl
    · trivial
    · refine ⟨le_refl 0, le_refl 0, by norm_num, fun _ => ?_⟩
      rw [show (-(0 * TIME_SCALE) / 1 : ℝ) = 0 by norm_num, Real.exp_zero]
      norm_num
    · trivial
  exact ⟨hgood, c1_norm_band _ hgood⟩

theorem normalize_small (s : EngineState) (h : norm2 s ≤ 1e-20) : normalize s = s := by
  unfold normalize
  rw [if_neg]
  rw [not_lt]
  calc Real.sqrt (cnorm2 s.alpha + cnorm2 s.beta) ≤ Real.sqrt 1e-20 := by
        apply Real.sqrt_le_sqrt
        unfold norm2 at h
        linarith
    _ = 1e-10 := by
        rw [show (1e-20 : ℝ) = (1e-10) ^ 2 by norm_num, Real.sqrt_sq (by norm_num)]

/-- The T1 step when the α guard fails and the β guard passes: α is
left untouched and only β is rescaled. -/
theorem applyT1_alpha_small (simDt : ℝ) (deco : DecoState) (s : EngineState)
    (hcond : 0 < deco.T1 ∧ deco.T1 < 1e6)
    (ha : ¬(cnorm2 s.alpha > 1e-12)) (hb : cnorm2 s.beta > 1e-12) :
    applyT1 simDt deco s = { s with
      beta := cscale s.beta (Real.sqrt
        ((max 0 (min 1 (deco.thermalExcitation +
            (cnorm2 s.beta - deco.thermalExcitation) *
              Real.exp (-simDt / deco.T1)))) / cnorm2 s.beta)) } := by
  unfold applyT1
  dsimp only
  rw [if_pos hcond, if_neg ha, if_pos hb]

/-- Claim C1 counterexample: at 1 mK and 1 T the model snapshot has
T1 = 100 s (clamped), T2 = 200 s, and thermal probability exactly 0
(the β > 500 overflow guard).  From |1⟩ = X|0⟩, applyDecoherence with
dt = 1e12 (decay exp(−500)) leaves α = 0 untouched (its population is
under the 1e-12 guard), shrinks |β|² to exp(−500) ≤ 1e-20, and
normalize refuses to rescale below its 1e-10 floor — the squared norm
leaves the claimed band. -/
theorem c1_counterexample :
    norm2 (runCalls [SimCall.gate "X" none, SimCall.deco 1e12 (snapshotOf 1 1) 0]
      initState) < 1 - 1e-6 := by
  have hX := applyGate_fields "X" none initState ⟨0, 0⟩ ⟨1, 0⟩
    (by simp [gateTransform, initState]) (by norm_num [cnorm2])
  have hTk1 : (max ((1 : ℝ) / 1000) 0.001) = 0.001 := by
    rw [show ((1 : ℝ) / 1000) = 0.001 by norm_num]
    exact max_self _
  have horb : ¬((-(0.1e-3 * 1.602e-19) / (Deco.KB * 0.001) : ℝ) > -500) := by
    rw [gt_iff_lt, neg_div, neg_lt_neg_iff, not_lt,
      le_div_iff (by norm_num [Deco.KB])]
    norm_num [Deco.KB]
  have hbeta500 : (Deco.G_FACTOR * Deco.MU_B * 1 / (Deco.KB * 0.001) : ℝ) > 500 := by
    rw [gt_iff_lt, lt_div_iff (by norm_num [Deco.KB])]
    norm_num [Deco.KB, Deco.G_FACTOR, Deco.MU_B]
  have hsnap : snapshotOf 1 1 = ⟨100, 200, 0⟩ := by
    unfold snapshotOf computePhysics
    dsimp only
    rw [hTk1, if_neg horb, if_pos hbeta500]
    have h100 : (100 : ℝ) ≤ 1 / (1 / Deco.T1_REF * (0.001 / Deco.T_REF) +
        0.001 * (0.001 / Deco.T_REF) * 1 ^ 4 + 1e-8 * (0.001 / Deco.T_REF) ^ 7 + 0) := by
      rw [le_div_iff (by norm_num [Deco.T1_REF, Deco.T_REF])]
      norm_num [Deco.T1_REF, Deco.T_REF]
    have hT1eq : min 100 (max 1e-9 (1 / (1 / Deco.T1_REF * (0.001 / Deco.T_REF) +
        0.001 * (0.001 / Deco.T_REF) * 1 ^ 4 + 1e-8 * (0.001 / Deco.T_REF) ^ 7 + 0)))
        = (100 : ℝ) := min_eq_left (le_trans h100 (le_max_right _ _))
    rw [hT1eq]
    have hphon : (Deco.T2_REF * ((Deco.T_REF / 0.001) ^ 3) : ℝ) = 224 := by
      norm_num [Deco.T2_REF, Deco.T_REF]
    rw [hphon, min_eq_right (by norm_num : (2 * (100 : ℝ)) ≤ 224),
      max_eq_right (by norm_num : (1e-9 : ℝ) ≤ 2 * 100),
      show (2 * (100 : ℝ)) = 200 by norm_num]
  have hrun : runCalls [SimCall.gate "X" none, SimCall.deco 1e12 (snapshotOf 1 1) 0]
      initState
      = applyDecoherence 1e12 (snapshotOf 1 1) 0 (applyGate "X" none initState) := rfl
  rw [hrun, hsnap]
  have hca : cnorm2 (applyGate "X" none initState).alpha = 0 := by
    rw [hX.1]
    norm_num [cnorm2]
  have hcb : cnorm2 (applyGate "X" none initState).beta = 1 := by
    rw [hX.2]
    norm_num [cnorm2]
  have hsim : (-(1e12 * TIME_SCALE) / (100 : ℝ)) = -500 := by
    norm_num [TIME_SCALE]
  have hE1 : Real.exp (-(1e12 * TIME_SCALE) / (100 : ℝ)) ≤ 1 := by
    rw [hsim]
    calc Real.exp (-500 : ℝ) ≤ Real.exp 0 := Real.exp_le_exp.mpr (by norm_num)
      _ = 1 := Real.exp_zero
  have hE0 : (0 : ℝ) ≤ Real.exp (-(1e12 * TIME_SCALE) / (100 : ℝ)) := (Real.exp_pos _).le
  have hEsmall : Real.exp (-(1e12 * TIME_SCALE) / (100 : ℝ)) ≤ 1e-20 := by
    rw [hsim]
    refine le_trans (exp_le_of_le_neg_nat _ 47 (by norm_num)) ?_
    rw [inv_le (by positivity) (by norm_num)]
    norm_num
  have hT1app := applyT1_alpha_small (1e12 * TIME_SCALE) ⟨100, 200, 0⟩
    (applyGate "X" none initState) ⟨by norm_num, by norm_num⟩
    (by rw [hca]; norm_num) (by rw [hcb]; norm_num)
  have hnormT1 : norm2 (applyT1 (1e12 * TIME_SCALE) ⟨100, 200, 0⟩
      (applyGate "X" none initState)) = Real.exp (-(1e12 * TIME_SCALE) / (100 : ℝ)) := by
    rw [hT1app]
    unfold norm2
    dsimp only
    rw [cnorm2_rescale _ _ (le_max_left _ _) (by rw [hcb]; norm_num), hca, hcb]
    rw [show ((0 : ℝ) + (1 - 0) * Real.exp (-(1e12 * TIME_SCALE) / (100 : ℝ)))
        = Real.exp (-(1e12 * TIME_SCALE) / (100 : ℝ)) by ring]
    rw [min_eq_right hE1, max_eq_right hE0, zero_add]
  have hXsmall : norm2 (applyT2 (1e12 * TIME_SCALE) 0 ⟨100, 200, 0⟩
      (applyT1 (1e12 * TIME_SCALE) ⟨100, 200, 0⟩ (applyGate "X" none initState)))
      ≤ 1e-20 := by
    rw [norm2_applyT2, hnormT1]
    exact hEsmall
  unfold applyDecoherence
  rw [normalize_small _ hXsmall, norm2_applyT2, hnormT1]
  have hband : (1e-20 : ℝ) < 1 - 1e-6 := by norm_num
  linarith

end SpinSim
